import Mathlib

/-!
# Container statistics pipeline (`stats/common.go`)

A shallow embedding of the statistics pipeline of `stats/common.go`:
`getContainerInfo`, `convertDockerStats`, `FromString` and `getLinkStats`,
together with the data model they work on, followed by the properties
established about them.

Modelling conventions.

* Go `int64` / `int` values are Lean `Int`; Go `uint64` values are Lean `Nat`.
  The Go conversion `uint64(v)` is the function `uint64` below, which reduces
  modulo `2 ^ 64`.
* A Go slice is the list of its elements (a nil slice is the empty list); a Go
  `string` read from the stream is the list of its bytes.
* A Go `map[string]V` is an association list with pairwise distinct keys;
  `m[k] = v` is `mapAssign`.  Iterating a map with `range` visits its entries
  in an unspecified order, which is supplied by a `RangeOrder`.
* A Go result pair `(value, error)` is a Lean pair whose second component is an
  `Option Error`; `none` is the nil error.
* The libraries outside the repository (`bufio`, `encoding/json`, `netns`,
  `netlink`) are taken through their documented contracts: `Reader.ReadString`
  follows the documentation of `bufio.Reader.ReadString`, the JSON decoder is
  a parameter `Unmarshal`, and the namespace calls are the fields of `Kernel`.
-/

namespace Stats

/-- Go `error` values. -/
structure Error where
  msg : String
  deriving DecidableEq

/-- One byte of the input stream. -/
abbrev Byte := Fin 256

/-- The Go conversion `uint64(v)` of a signed integer: the value modulo `2 ^ 64`. -/
def uint64 (v : Int) : Nat := (v % 2 ^ 64).toNat

/-- The Go conversion `uint64(v)` of an unsigned integer of at most 64 bits. -/
def uint64OfNat (v : Nat) : Nat := v % 2 ^ 64

/-- The values of the Go type `int64`. -/
def isInt64 (v : Int) : Prop := -(2 ^ 63) ≤ v ∧ v < 2 ^ 63

instance (v : Int) : Decidable (isInt64 v) := by unfold isInt64; infer_instance

/-- Go `time.Time`, kept abstract: the instant in nanoseconds. -/
structure Time where
  unixNano : Int := 0
  deriving DecidableEq

/-! ## The upstream record `DockerStats` -/

/-- The anonymous struct `pids_stats`. -/
structure RawPidsStats where
  Current : Int := 0
  deriving DecidableEq

/-- The anonymous struct that is the value type of `networks`. -/
structure RawNetworkEntry where
  RxBytes : Int := 0
  RxDropped : Int := 0
  RxErrors : Int := 0
  RxPackets : Int := 0
  TxBytes : Int := 0
  TxDropped : Int := 0
  TxErrors : Int := 0
  TxPackets : Int := 0
  deriving DecidableEq

/-- The anonymous struct of the block I/O lists: one `major, minor, op, value` tuple. -/
structure BlkioEntry where
  Major : Int := 0
  Minor : Int := 0
  Op : String := ""
  Value : Int := 0
  deriving DecidableEq

/-- The anonymous struct `blkio_stats`. -/
structure RawBlkioStats where
  IoServiceBytesRecursive : List BlkioEntry := []
  IoServicedRecursive : List BlkioEntry := []
  IoQueueRecursive : List BlkioEntry := []
  IoServiceTimeRecursive : List BlkioEntry := []
  IoWaitTimeRecursive : List BlkioEntry := []
  IoMergedRecursive : List BlkioEntry := []
  IoTimeRecursive : List BlkioEntry := []
  SectorsRecursive : List BlkioEntry := []
  deriving DecidableEq

/-- The anonymous struct `memory_stats.stats`. -/
structure RawMemoryDetail where
  TotalPgmajfault : Int := 0
  Cache : Int := 0
  MappedFile : Int := 0
  TotalInactiveFile : Int := 0
  Pgpgout : Int := 0
  Rss : Int := 0
  TotalMappedFile : Int := 0
  Writeback : Int := 0
  Unevictable : Int := 0
  Pgpgin : Int := 0
  TotalUnevictable : Int := 0
  Pgmajfault : Int := 0
  TotalRss : Int := 0
  TotalRssHuge : Int := 0
  TotalWriteback : Int := 0
  TotalInactiveAnon : Int := 0
  RssHuge : Int := 0
  HierarchicalMemoryLimit : Nat := 0
  TotalPgfault : Int := 0
  TotalActiveFile : Int := 0
  ActiveAnon : Int := 0
  TotalActiveAnon : Int := 0
  TotalPgpgout : Int := 0
  TotalCache : Int := 0
  InactiveAnon : Int := 0
  ActiveFile : Int := 0
  Pgfault : Int := 0
  InactiveFile : Int := 0
  TotalPgpgin : Int := 0

/-- The anonymous struct `memory_stats`. -/
structure RawMemoryStats where
  Stats : RawMemoryDetail := {}
  MaxUsage : Int := 0
  Usage : Int := 0
  Failcnt : Int := 0
  Limit : Int := 0

/-- The anonymous struct `cpu_usage`. -/
structure RawCPUUsage where
  PercpuUsage : List Int := []
  UsageInUsermode : Int := 0
  TotalUsage : Int := 0
  UsageInKernelmode : Int := 0
  deriving DecidableEq

/-- The anonymous struct `throttling_data`. -/
structure RawThrottlingData where
  Periods : Int := 0
  ThrottledPeriods : Int := 0
  ThrottledTime : Int := 0
  deriving DecidableEq

/-- The anonymous struct of `cpu_stats` and `precpu_stats`. -/
structure RawCPUStats where
  CPUUsage : RawCPUUsage := {}
  SystemCPUUsage : Int := 0
  ThrottlingData : RawThrottlingData := {}
  deriving DecidableEq

/-- The upstream wire record, `type DockerStats struct`. -/
structure DockerStats where
  Read : Time := {}
  PidsStats : RawPidsStats := {}
  Networks : List (String × RawNetworkEntry) := []
  BlkioStats : RawBlkioStats := {}
  MemoryStats : RawMemoryStats := {}
  CPUStats : RawCPUStats := {}
  PrecpuStats : RawCPUStats := {}

/-! ## The canonical record `containerStats` -/

/-- Go `type CpuUsage struct`. -/
structure CpuUsage where
  Total : Nat := 0
  PerCpu : List Nat := []
  User : Nat := 0
  System : Nat := 0
  deriving DecidableEq

/-- Go `type CpuStats struct`. -/
structure CpuStats where
  Usage : CpuUsage := {}
  deriving DecidableEq

/-- Go `type PerDiskStats struct`; `Stats` is a `map[string]uint64`. -/
structure PerDiskStats where
  Major : Nat := 0
  Minor : Nat := 0
  Stats : List (String × Nat) := []
  deriving DecidableEq

/-- Go `type DiskIoStats struct`. -/
structure DiskIoStats where
  IoServiceBytes : List PerDiskStats := []
  deriving DecidableEq

/-- Go `type InterfaceStats struct`. -/
structure InterfaceStats where
  Name : String := ""
  RxBytes : Nat := 0
  RxPackets : Nat := 0
  RxErrors : Nat := 0
  RxDropped : Nat := 0
  TxBytes : Nat := 0
  TxPackets : Nat := 0
  TxErrors : Nat := 0
  TxDropped : Nat := 0
  deriving DecidableEq

/-- Go `type NetworkStats struct`, which embeds an `InterfaceStats`. -/
structure NetworkStats extends InterfaceStats where
  Interfaces : List InterfaceStats := []
  deriving DecidableEq

/-- Go `type MemoryStats struct`. -/
structure MemoryStats where
  Usage : Nat := 0
  deriving DecidableEq

/-- Go `type containerStats struct`. -/
structure containerStats where
  Timestamp : Time := {}
  Cpu : CpuStats := {}
  DiskIo : DiskIoStats := {}
  Network : NetworkStats := {}
  Memory : MemoryStats := {}
  deriving DecidableEq

/-- Go `type containerInfo struct`; `containerInfo{}` is the zero value. -/
structure containerInfo where
  Id : String := ""
  Stats : List containerStats := []
  deriving DecidableEq

/-! ## Go maps -/

/-- The Go map assignment `m[k] = v`: overwrite the entry of `k`, or add one. -/
def mapAssign {V : Type} (k : String) (v : V) : List (String × V) → List (String × V)
  | [] => [(k, v)]
  | (k', v') :: rest =>
    if k' = k then (k, v) :: rest else (k', v') :: mapAssign k v rest

/-- The keys of a Go map. -/
def mapKeys {V : Type} (m : List (String × V)) : List String := m.map Prod.fst

/-- The Go map read `m[k]` with presence flag. -/
def mapLookup {V : Type} (k : String) : List (String × V) → Option V
  | [] => none
  | (k', v') :: rest => if k' = k then some v' else mapLookup k rest

/-! ## The network namespace -/

/-- The counters of `netlink.LinkStatistics`, unsigned integers of at most 64 bits. -/
structure LinkStatistics where
  RxPackets : Nat := 0
  TxPackets : Nat := 0
  RxBytes : Nat := 0
  TxBytes : Nat := 0
  RxErrors : Nat := 0
  TxErrors : Nat := 0
  RxDropped : Nat := 0
  TxDropped : Nat := 0
  deriving DecidableEq

/-- The counters of a link are values of the Go type `uint64`. -/
def LinkStatistics.valid (s : LinkStatistics) : Prop :=
  s.RxPackets < 2 ^ 64 ∧ s.TxPackets < 2 ^ 64 ∧ s.RxBytes < 2 ^ 64 ∧ s.TxBytes < 2 ^ 64 ∧
  s.RxErrors < 2 ^ 64 ∧ s.TxErrors < 2 ^ 64 ∧ s.RxDropped < 2 ^ 64 ∧ s.TxDropped < 2 ^ 64

instance (s : LinkStatistics) : Decidable s.valid := by
  unfold LinkStatistics.valid; infer_instance

/-- The part of `netlink.LinkAttrs` the pipeline reads. `Statistics` is the record
behind the pointer of that name, which `LinkList` fills for every link it returns. -/
structure LinkAttrs where
  Name : String := ""
  Statistics : LinkStatistics := {}
  deriving DecidableEq

/-- A `netlink.Link`, through its method `Attrs()`. -/
structure Link where
  Attrs : LinkAttrs := {}
  deriving DecidableEq

/-- The visiting order of a `range` loop over a map: some rearrangement of its entries. -/
structure RangeOrder where
  visit : List (String × LinkStatistics) → List (String × LinkStatistics)
  visit_perm : ∀ m, (visit m).Perm m

/-- The namespace capability at the moment of one call of `getLinkStats`:
`netns.GetFromPid`, `netlink.NewHandleAt`, `Handle.LinkList`, and the order in
which the resulting map is then iterated. -/
structure Kernel where
  GetFromPid : Int → Except Error Nat
  NewHandleAt : Nat → Except Error Nat
  LinkList : Nat → Except Error (List Link)
  order : RangeOrder

/-! ## The input stream -/

/-- A `bufio.Reader`: the bytes still to be delivered, and the error the
underlying stream reports once they are exhausted (`io.EOF` at the end of data). -/
structure Reader where
  pending : List Byte
  fault : Error
  deriving DecidableEq

/-- Cut a byte sequence after the first occurrence of `delim`. -/
def splitAfter (delim : Byte) : List Byte → Option (List Byte × List Byte)
  | [] => none
  | b :: bs =>
    if b = delim then some ([b], bs)
    else match splitAfter delim bs with
      | none => none
      | some (line, rest) => some (b :: line, rest)

/-- Go `bufio.Reader.ReadString`: the data up to and including the first `delim`;
when the stream fails before a delimiter, the data read so far and the error. -/
def Reader.ReadString (r : Reader) (delim : Byte) : (List Byte × Option Error) × Reader :=
  match splitAfter delim r.pending with
  | some (line, rest) => ((line, none), { r with pending := rest })
  | none => ((r.pending, some r.fault), { r with pending := [] })

/-- The contract of `json.Unmarshal(data, &obj)`: the object after decoding and the error. -/
abbrev Unmarshaler := List Byte → DockerStats → DockerStats × Option Error

/-! ## The pipeline -/

/-- Go `func FromString(rawstring string) (DockerStats, error)`. -/
def FromString (Unmarshal : Unmarshaler) (rawstring : List Byte) : DockerStats × Option Error :=
  let obj : DockerStats := {}
  let (obj, err) := Unmarshal rawstring obj
  match err with
  | some e => (obj, some e)
  | none => (obj, none)

/-- Go `func getLinkStats(pid int) map[string]*netlink.LinkStatistics`.
Every `return nil` is the empty map. -/
def getLinkStats (kernel : Kernel) (pid : Int) : List (String × LinkStatistics) :=
  let ret : List (String × LinkStatistics) := []
  match kernel.GetFromPid pid with
  | .error _ => []
  | .ok nsHandler =>
    match kernel.NewHandleAt nsHandler with
    | .error _ => []
    | .ok handler =>
      match kernel.LinkList handler with
      | .error _ => []
      | .ok links =>
        links.foldl
          (fun ret link =>
            let attr := link.Attrs
            if attr.Name ≠ "lo" then mapAssign attr.Name attr.Statistics ret else ret)
          ret

/-- Go `func convertDockerStats(stats DockerStats, pid int) *containerStats`.
Each assignment to a field of the local `containerStats` is a binding below, in
the order of the source; the record is assembled from them at the end. -/
def convertDockerStats (kernel : Kernel) (stats : DockerStats) (pid : Int) : containerStats :=
  let timestamp := stats.Read
  let total := uint64 stats.CPUStats.CPUUsage.TotalUsage
  let perCpu : List Nat := []
  let perCpu :=
    stats.CPUStats.CPUUsage.PercpuUsage.foldl (fun perCpu value => perCpu ++ [uint64 value]) perCpu
  let system := uint64 stats.CPUStats.CPUUsage.UsageInKernelmode
  let user := uint64 stats.CPUStats.CPUUsage.UsageInKernelmode
  let usage := uint64 stats.MemoryStats.Usage
  let interfaces : List InterfaceStats := []
  let interfaces :=
    (kernel.order.visit (getLinkStats kernel pid)).foldl
      (fun interfaces entry =>
        let name := entry.1
        let netStats := entry.2
        let data : InterfaceStats :=
          { Name := name
            RxBytes := uint64OfNat netStats.RxBytes
            RxDropped := uint64OfNat netStats.RxDropped
            RxErrors := uint64OfNat netStats.RxErrors
            RxPackets := uint64OfNat netStats.RxPackets
            TxBytes := uint64OfNat netStats.TxBytes
            TxDropped := uint64OfNat netStats.TxDropped
            TxPackets := uint64OfNat netStats.TxPackets
            TxErrors := uint64OfNat netStats.TxErrors }
        interfaces ++ [data])
      interfaces
  let ioServiceBytes : List PerDiskStats := []
  let ioServiceBytes :=
    stats.BlkioStats.IoServiceBytesRecursive.foldl
      (fun ioServiceBytes diskStats =>
        let data : PerDiskStats := {}
        let data : PerDiskStats := { data with Stats := [] }
        let data : PerDiskStats :=
          { data with Stats := mapAssign diskStats.Op (uint64 diskStats.Value) data.Stats }
        ioServiceBytes ++ [data])
      ioServiceBytes
  { Timestamp := timestamp
    Cpu := { Usage := { Total := total, PerCpu := perCpu, User := user, System := system } }
    DiskIo := { IoServiceBytes := ioServiceBytes }
    Network := { Interfaces := interfaces }
    Memory := { Usage := usage } }

/-- The loop of `getContainerInfo`, with `remaining = count - i` iterations to go.
`kernels i` is the namespace capability during iteration `i`. -/
def getContainerInfoLoop (Unmarshal : Unmarshaler) (kernels : Nat → Kernel) (pid : Int)
    (contInfo : containerInfo) :
    Nat → Nat → Reader → List containerStats → (containerInfo × Option Error) × Reader
  | 0, _, reader, stats => (({ contInfo with Stats := stats }, none), reader)
  | remaining + 1, i, reader, stats =>
    let ((str, err), reader) := reader.ReadString 10
    match err with
    | some e => (({}, some e), reader)
    | none =>
      let (dockerStats, err) := FromString Unmarshal str
      match err with
      | some e => (({}, some e), reader)
      | none =>
        let contStats := convertDockerStats (kernels i) dockerStats pid
        getContainerInfoLoop Unmarshal kernels pid contInfo remaining (i + 1) reader
          (stats ++ [contStats])

/-- Go `func getContainerInfo(reader *bufio.Reader, count int, id string, pid int)
(containerInfo, error)`, returning also the reader as the call leaves it.
The loop `for i := 0; i < count; i++` runs `count.toNat` times. -/
def getContainerInfo (Unmarshal : Unmarshaler) (kernels : Nat → Kernel)
    (reader : Reader) (count : Int) (id : String) (pid : Int) :
    (containerInfo × Option Error) × Reader :=
  let contInfo : containerInfo := {}
  let contInfo := { contInfo with Id := id }
  let stats : List containerStats := []
  getContainerInfoLoop Unmarshal kernels pid contInfo count.toNat 0 reader stats

/-! ## Specification-side definitions -/

/-- The canonical interface record of one map entry, counter by counter. -/
def interfaceOf (entry : String × LinkStatistics) : InterfaceStats :=
  { Name := entry.1
    RxBytes := entry.2.RxBytes
    RxPackets := entry.2.RxPackets
    RxErrors := entry.2.RxErrors
    RxDropped := entry.2.RxDropped
    TxBytes := entry.2.TxBytes
    TxPackets := entry.2.TxPackets
    TxErrors := entry.2.TxErrors
    TxDropped := entry.2.TxDropped }

/-- Interface resolution for `pid` succeeds at every step and enumerates `links`. -/
def resolvesTo (kernel : Kernel) (pid : Int) (links : List Link) : Prop :=
  ∃ ns h, kernel.GetFromPid pid = .ok ns ∧ kernel.NewHandleAt ns = .ok h ∧
    kernel.LinkList h = .ok links

/-- Interface resolution for `pid` fails at the namespace lookup, at the handle
open, or at the link enumeration. -/
def resolutionFails (kernel : Kernel) (pid : Int) : Prop :=
  (∃ e, kernel.GetFromPid pid = .error e) ∨
  (∃ ns e, kernel.GetFromPid pid = .ok ns ∧ kernel.NewHandleAt ns = .error e) ∨
  (∃ ns h e, kernel.GetFromPid pid = .ok ns ∧ kernel.NewHandleAt ns = .ok h ∧
    kernel.LinkList h = .error e)

/-- The byte stream made of the documents `docs`, each followed by a newline. -/
def streamOf (docs : List (List Byte)) : List Byte :=
  (docs.map fun d => d ++ [10]).flatten

/-- The snapshots of the documents `docs`, the first one converted during iteration `i`. -/
def snapshotsFrom (Unmarshal : Unmarshaler) (kernels : Nat → Kernel) (pid : Int) :
    Nat → List (List Byte) → List containerStats
  | _, [] => []
  | i, d :: ds =>
    convertDockerStats (kernels i) (FromString Unmarshal (d ++ [10])).1 pid ::
      snapshotsFrom Unmarshal kernels pid (i + 1) ds

/-- The map built by the loop of `getLinkStats` over `links`, starting from `ret`. -/
def collectLinks (links : List Link) (ret : List (String × LinkStatistics)) :
    List (String × LinkStatistics) :=
  links.foldl
    (fun ret link =>
      if link.Attrs.Name ≠ "lo" then mapAssign link.Attrs.Name link.Attrs.Statistics ret else ret)
    ret

/-! ## Concrete inputs used by the examples -/

/-- A map iteration order: the entries in the order they are stored. -/
def storedOrder : RangeOrder :=
  ⟨fun m => m, fun m => List.Perm.refl m⟩

/-- A map iteration order: the entries in reverse. -/
def reversedOrder : RangeOrder :=
  ⟨fun m => m.reverse, fun m => List.reverse_perm m⟩

/-- A namespace with the loopback interface and two further links. -/
def sampleLinks : List Link :=
  [ { Attrs := { Name := "lo", Statistics := { RxPackets := 7, TxPackets := 7 } } },
    { Attrs := { Name := "eth0",
                 Statistics := { RxPackets := 1, TxPackets := 2, RxBytes := 3, TxBytes := 4,
                                 RxErrors := 5, TxErrors := 6, RxDropped := 7, TxDropped := 8 } } },
    { Attrs := { Name := "eth1", Statistics := { RxBytes := 90, TxBytes := 91 } } } ]

/-- A kernel in which every process resolves to the namespace of `sampleLinks`. -/
def sampleKernel : Kernel :=
  { GetFromPid := fun _ => .ok 3
    NewHandleAt := fun _ => .ok 4
    LinkList := fun _ => .ok sampleLinks
    order := reversedOrder }

/-- A kernel in which no process has a network namespace. -/
def failingKernel : Kernel :=
  { GetFromPid := fun _ => .error ⟨"no such process"⟩
    NewHandleAt := fun _ => .ok 4
    LinkList := fun _ => .ok sampleLinks
    order := storedOrder }

/-- A decoder for the examples: it accepts the empty JSON object followed by a
newline, leaving the record untouched, and rejects every other input. -/
def sampleUnmarshal : Unmarshaler :=
  fun data obj =>
    if data = [123, 125, 10] then (obj, none) else (obj, some ⟨"invalid character"⟩)

/-- The error at the end of a finite stream. -/
def EOF : Error := ⟨"EOF"⟩

/-! ## Auxiliary lemmas -/

theorem foldl_snoc_eq_map {α β : Type} (f : α → β) (l : List α) (init : List β) :
    l.foldl (fun acc x => acc ++ [f x]) init = init ++ l.map f := by
  induction l generalizing init with
  | nil => simp
  | cons x xs ih => simp [ih]

theorem convertDockerStats_perCpu (kernel : Kernel) (stats : DockerStats) (pid : Int) :
    (convertDockerStats kernel stats pid).Cpu.Usage.PerCpu =
      stats.CPUStats.CPUUsage.PercpuUsage.map uint64 := by
  simp [convertDockerStats, foldl_snoc_eq_map]

theorem convertDockerStats_ioServiceBytes (kernel : Kernel) (stats : DockerStats) (pid : Int) :
    (convertDockerStats kernel stats pid).DiskIo.IoServiceBytes =
      stats.BlkioStats.IoServiceBytesRecursive.map
        (fun d => { Major := 0, Minor := 0, Stats := [(d.Op, uint64 d.Value)] }) := by
  simp only [convertDockerStats]
  rw [foldl_snoc_eq_map]
  simp [mapAssign]

theorem uint64OfNat_of_lt {v : Nat} (h : v < 2 ^ 64) : uint64OfNat v = v := by
  unfold uint64OfNat
  exact Nat.mod_eq_of_lt h

theorem convertDockerStats_interfaces (kernel : Kernel) (stats : DockerStats) (pid : Int) :
    (convertDockerStats kernel stats pid).Network.Interfaces =
      (kernel.order.visit (getLinkStats kernel pid)).map
        (fun entry =>
          { Name := entry.1
            RxBytes := uint64OfNat entry.2.RxBytes
            RxPackets := uint64OfNat entry.2.RxPackets
            RxErrors := uint64OfNat entry.2.RxErrors
            RxDropped := uint64OfNat entry.2.RxDropped
            TxBytes := uint64OfNat entry.2.TxBytes
            TxPackets := uint64OfNat entry.2.TxPackets
            TxErrors := uint64OfNat entry.2.TxErrors
            TxDropped := uint64OfNat entry.2.TxDropped }) := by
  simp only [convertDockerStats]
  rw [foldl_snoc_eq_map]
  simp

theorem uint64_of_nonneg {v : Int} (h0 : 0 ≤ v) (h : v < 2 ^ 63) : (uint64 v : Int) = v := by
  unfold uint64
  have h1 : v % 2 ^ 64 = v := Int.emod_eq_of_lt h0 (by omega)
  rw [h1]
  exact Int.toNat_of_nonneg h0

theorem uint64_of_neg {v : Int} (h0 : v < 0) (h : -(2 ^ 63) ≤ v) :
    (uint64 v : Int) = v + 2 ^ 64 := by
  unfold uint64
  have h1 : v % 2 ^ 64 = v + 2 ^ 64 := by
    have h2 : (v + 2 ^ 64) % 2 ^ 64 = v + 2 ^ 64 := Int.emod_eq_of_lt (by omega) (by omega)
    rw [← h2]
    simp
  rw [h1]
  exact Int.toNat_of_nonneg (by omega)

theorem uint64_cast (v : Int) : (uint64 v : Int) = v % 2 ^ 64 := by
  unfold uint64
  exact Int.toNat_of_nonneg (Int.emod_nonneg v (by norm_num))

theorem getLinkStats_of_resolvesTo {kernel : Kernel} {pid : Int} {links : List Link}
    (h : resolvesTo kernel pid links) : getLinkStats kernel pid = collectLinks links [] := by
  obtain ⟨ns, hd, h1, h2, h3⟩ := h
  simp [getLinkStats, h1, h2, h3, collectLinks]

theorem getLinkStats_of_resolutionFails {kernel : Kernel} {pid : Int}
    (h : resolutionFails kernel pid) : getLinkStats kernel pid = [] := by
  rcases h with ⟨e, h1⟩ | ⟨ns, e, h1, h2⟩ | ⟨ns, hd, e, h1, h2, h3⟩
  · simp [getLinkStats, h1]
  · simp [getLinkStats, h1, h2]
  · simp [getLinkStats, h1, h2, h3]

theorem getLinkStats_cases (kernel : Kernel) (pid : Int) :
    getLinkStats kernel pid = [] ∨ ∃ links, resolvesTo kernel pid links := by
  cases h1 : kernel.GetFromPid pid with
  | error e => exact Or.inl (getLinkStats_of_resolutionFails (Or.inl ⟨e, h1⟩))
  | ok ns =>
    cases h2 : kernel.NewHandleAt ns with
    | error e => exact Or.inl (getLinkStats_of_resolutionFails (Or.inr (Or.inl ⟨ns, e, h1, h2⟩)))
    | ok hd =>
      cases h3 : kernel.LinkList hd with
      | error e =>
        exact Or.inl (getLinkStats_of_resolutionFails (Or.inr (Or.inr ⟨ns, hd, e, h1, h2, h3⟩)))
      | ok links => exact Or.inr ⟨links, ns, hd, h1, h2, h3⟩

theorem mem_mapKeys_mapAssign {V : Type} (k : String) (v : V) (m : List (String × V))
    (n : String) : n ∈ mapKeys (mapAssign k v m) ↔ n = k ∨ n ∈ mapKeys m := by
  induction m with
  | nil => simp [mapAssign, mapKeys]
  | cons p rest ih =>
    obtain ⟨k', v'⟩ := p
    by_cases hk : k' = k
    · subst hk
      simp [mapAssign, mapKeys]
    · have ih' : n ∈ List.map Prod.fst (mapAssign k v rest) ↔ n = k ∨ n ∈ List.map Prod.fst rest :=
        ih
      simp only [mapAssign, if_neg hk, mapKeys, List.map_cons, List.mem_cons, ih']
      tauto

theorem nodup_mapKeys_mapAssign {V : Type} (k : String) (v : V) (m : List (String × V))
    (h : (mapKeys m).Nodup) : (mapKeys (mapAssign k v m)).Nodup := by
  induction m with
  | nil => simp [mapAssign, mapKeys]
  | cons p rest ih =>
    obtain ⟨k', v'⟩ := p
    have hcons : k' ∉ mapKeys rest ∧ (mapKeys rest).Nodup := by
      simpa [mapKeys] using h
    by_cases hk : k' = k
    · subst hk
      simpa [mapAssign, mapKeys] using h
    · have hnot : k' ∉ mapKeys (mapAssign k v rest) := by
        rw [mem_mapKeys_mapAssign]
        rintro (h1 | h1)
        · exact hk h1
        · exact hcons.1 h1
      have ih' := ih hcons.2
      simp only [mapAssign, if_neg hk]
      show (k' :: mapKeys (mapAssign k v rest)).Nodup
      exact List.nodup_cons.mpr ⟨hnot, ih'⟩

theorem mapLookup_mapAssign {V : Type} (k : String) (v : V) (m : List (String × V))
    (n : String) :
    mapLookup n (mapAssign k v m) = if n = k then some v else mapLookup n m := by
  induction m with
  | nil =>
    by_cases hn : n = k
    · simp [mapAssign, mapLookup, hn]
    · have hn' : ¬ k = n := fun h => hn h.symm
      simp [mapAssign, mapLookup, hn, hn']
  | cons p rest ih =>
    obtain ⟨k', v'⟩ := p
    by_cases hk : k' = k
    · subst hk
      by_cases hn : n = k'
      · simp [mapAssign, mapLookup, hn]
      · have hn' : ¬ k' = n := fun h => hn h.symm
        simp [mapAssign, mapLookup, hn, hn']
    · by_cases hn : n = k
      · subst hn
        simp [mapAssign, mapLookup, hk, ih]
      · by_cases hn2 : k' = n
        · simp [mapAssign, mapLookup, hk, hn, hn2]
        · simp [mapAssign, mapLookup, hk, hn, hn2, ih]

theorem mapLookup_of_mem_of_nodup {V : Type} (m : List (String × V)) (n : String) (v : V)
    (hnd : (mapKeys m).Nodup) (h : (n, v) ∈ m) : mapLookup n m = some v := by
  induction m with
  | nil => simp at h
  | cons p rest ih =>
    obtain ⟨k', v'⟩ := p
    have hcons : k' ∉ mapKeys rest ∧ (mapKeys rest).Nodup := by
      simpa [mapKeys] using hnd
    rcases List.mem_cons.mp h with h1 | h1
    · have hk : k' = n := (congrArg Prod.fst h1).symm
      have hv : v' = v := (congrArg Prod.snd h1).symm
      simp [mapLookup, hk, hv]
    · have hne : ¬ k' = n := by
        intro hk
        apply hcons.1
        rw [hk]
        exact List.mem_map.mpr ⟨(n, v), h1, rfl⟩
      simp [mapLookup, hne, ih hcons.2 h1]

theorem collectLinks_spec (links : List Link) (ret : List (String × LinkStatistics))
    (hnd : (mapKeys ret).Nodup) :
    (mapKeys (collectLinks links ret)).Nodup ∧
    (∀ n, n ∈ mapKeys (collectLinks links ret) ↔
      n ∈ mapKeys ret ∨ (n ≠ "lo" ∧ ∃ l ∈ links, l.Attrs.Name = n)) ∧
    (∀ n st, mapLookup n (collectLinks links ret) = some st →
      mapLookup n ret = some st ∨ ∃ l ∈ links, l.Attrs.Name = n ∧ l.Attrs.Statistics = st) := by
  induction links generalizing ret with
  | nil =>
    refine ⟨hnd, ?_, ?_⟩
    · intro n
      simp [collectLinks]
    · intro n st h
      exact Or.inl h
  | cons l ls ih =>
    by_cases hl : l.Attrs.Name = "lo"
    · have hstep : collectLinks (l :: ls) ret = collectLinks ls ret := by
        simp [collectLinks, hl]
      rw [hstep]
      obtain ⟨h1, h2, h3⟩ := ih ret hnd
      refine ⟨h1, ?_, ?_⟩
      · intro n
        rw [h2 n]
        constructor
        · rintro (h | ⟨hn, l', hl', hname⟩)
          · exact Or.inl h
          · exact Or.inr ⟨hn, l', List.mem_cons_of_mem _ hl', hname⟩
        · rintro (h | ⟨hn, l', hl', hname⟩)
          · exact Or.inl h
          · rcases List.mem_cons.mp hl' with h' | h'
            · subst h'
              exact absurd (hname.symm.trans hl) hn
            · exact Or.inr ⟨hn, l', h', hname⟩
      · intro n st h
        rcases h3 n st h with h' | ⟨l', hl', hname, hst⟩
        · exact Or.inl h'
        · exact Or.inr ⟨l', List.mem_cons_of_mem _ hl', hname, hst⟩
    · have hstep : collectLinks (l :: ls) ret =
          collectLinks ls (mapAssign l.Attrs.Name l.Attrs.Statistics ret) := by
        simp [collectLinks, hl]
      rw [hstep]
      obtain ⟨h1, h2, h3⟩ :=
        ih (mapAssign l.Attrs.Name l.Attrs.Statistics ret) (nodup_mapKeys_mapAssign _ _ _ hnd)
      refine ⟨h1, ?_, ?_⟩
      · intro n
        rw [h2 n, mem_mapKeys_mapAssign]
        constructor
        · rintro ((h | h) | ⟨hn, l', hl', hname⟩)
          · refine Or.inr ⟨?_, l, List.mem_cons_self _ _, h.symm⟩
            rw [h]
            exact hl
          · exact Or.inl h
          · exact Or.inr ⟨hn, l', List.mem_cons_of_mem _ hl', hname⟩
        · rintro (h | ⟨hn, l', hl', hname⟩)
          · exact Or.inl (Or.inr h)
          · rcases List.mem_cons.mp hl' with h' | h'
            · subst h'
              exact Or.inl (Or.inl hname.symm)
            · exact Or.inr ⟨hn, l', h', hname⟩
      · intro n st h
        rcases h3 n st h with h' | ⟨l', hl', hname, hst⟩
        · rw [mapLookup_mapAssign] at h'
          by_cases hn : n = l.Attrs.Name
          · rw [if_pos hn] at h'
            exact Or.inr ⟨l, List.mem_cons_self _ _, hn.symm, (Option.some.inj h')⟩
          · rw [if_neg hn] at h'
            exact Or.inl h'
        · exact Or.inr ⟨l', List.mem_cons_of_mem _ hl', hname, hst⟩

theorem getLinkStats_nodup (kernel : Kernel) (pid : Int) :
    (mapKeys (getLinkStats kernel pid)).Nodup := by
  rcases getLinkStats_cases kernel pid with h | ⟨links, h⟩
  · rw [h]
    simp [mapKeys]
  · rw [getLinkStats_of_resolvesTo h]
    exact (collectLinks_spec links [] (by simp [mapKeys])).1

theorem lo_not_mem_getLinkStats (kernel : Kernel) (pid : Int) :
    "lo" ∉ mapKeys (getLinkStats kernel pid) := by
  rcases getLinkStats_cases kernel pid with h | ⟨links, h⟩
  · rw [h]
    simp [mapKeys]
  · rw [getLinkStats_of_resolvesTo h, (collectLinks_spec links [] (by simp [mapKeys])).2.1]
    simp [mapKeys]

theorem splitAfter_doc (d rest : List Byte) (h : (10 : Byte) ∉ d) :
    splitAfter 10 (d ++ 10 :: rest) = some (d ++ [10], rest) := by
  induction d with
  | nil => simp [splitAfter]
  | cons b bs ih =>
    have hb : b ≠ 10 := fun hb => h (by simp [hb])
    have hbs : (10 : Byte) ∉ bs := fun hbs => h (List.mem_cons_of_mem _ hbs)
    simp [splitAfter, hb, ih hbs]

theorem splitAfter_none (t : List Byte) (h : (10 : Byte) ∉ t) : splitAfter 10 t = none := by
  induction t with
  | nil => simp [splitAfter]
  | cons b bs ih =>
    have hb : b ≠ 10 := fun hb => h (by simp [hb])
    have hbs : (10 : Byte) ∉ bs := fun hbs => h (List.mem_cons_of_mem _ hbs)
    simp [splitAfter, hb, ih hbs]

theorem loop_step_ok (Unmarshal : Unmarshaler) (kernels : Nat → Kernel) (pid : Int)
    (contInfo : containerInfo) (fault : Error) (d rest : List Byte) (remaining i : Nat)
    (stats : List containerStats) (h : (10 : Byte) ∉ d)
    (hdec : (FromString Unmarshal (d ++ [10])).2 = none) :
    getContainerInfoLoop Unmarshal kernels pid contInfo (remaining + 1) i
        ⟨d ++ 10 :: rest, fault⟩ stats =
      getContainerInfoLoop Unmarshal kernels pid contInfo remaining (i + 1) ⟨rest, fault⟩
        (stats ++ [convertDockerStats (kernels i) (FromString Unmarshal (d ++ [10])).1 pid]) := by
  rw [getContainerInfoLoop]
  simp only [Reader.ReadString, splitAfter_doc d rest h]
  cases hF : FromString Unmarshal (d ++ [10]) with
  | mk obj err =>
    rw [hF] at hdec
    simp only at hdec
    subst hdec
    rfl

theorem loop_read_fails (Unmarshal : Unmarshaler) (kernels : Nat → Kernel) (pid : Int)
    (contInfo : containerInfo) (fault : Error) (t : List Byte) (remaining i : Nat)
    (stats : List containerStats) (h : (10 : Byte) ∉ t) :
    getContainerInfoLoop Unmarshal kernels pid contInfo (remaining + 1) i ⟨t, fault⟩ stats =
      (({}, some fault), ⟨[], fault⟩) := by
  rw [getContainerInfoLoop]
  simp only [Reader.ReadString, splitAfter_none t h]

theorem loop_decode_fails (Unmarshal : Unmarshaler) (kernels : Nat → Kernel) (pid : Int)
    (contInfo : containerInfo) (fault e : Error) (d rest : List Byte) (remaining i : Nat)
    (stats : List containerStats) (h : (10 : Byte) ∉ d)
    (hdec : (FromString Unmarshal (d ++ [10])).2 = some e) :
    getContainerInfoLoop Unmarshal kernels pid contInfo (remaining + 1) i
        ⟨d ++ 10 :: rest, fault⟩ stats =
      (({}, some e), ⟨rest, fault⟩) := by
  rw [getContainerInfoLoop]
  simp only [Reader.ReadString, splitAfter_doc d rest h]
  cases hF : FromString Unmarshal (d ++ [10]) with
  | mk obj err =>
    rw [hF] at hdec
    simp only at hdec
    subst hdec
    rfl

theorem loop_docs (Unmarshal : Unmarshaler) (kernels : Nat → Kernel) (pid : Int)
    (contInfo : containerInfo) (fault : Error) (docs : List (List Byte)) (rest : List Byte)
    (extra i : Nat) (stats : List containerStats)
    (hdocs : ∀ d ∈ docs, (10 : Byte) ∉ d)
    (hdec : ∀ d ∈ docs, (FromString Unmarshal (d ++ [10])).2 = none) :
    getContainerInfoLoop Unmarshal kernels pid contInfo (docs.length + extra) i
        ⟨streamOf docs ++ rest, fault⟩ stats =
      getContainerInfoLoop Unmarshal kernels pid contInfo extra (i + docs.length) ⟨rest, fault⟩
        (stats ++ snapshotsFrom Unmarshal kernels pid i docs) := by
  induction docs generalizing i stats with
  | nil => simp [streamOf, snapshotsFrom]
  | cons d ds ih =>
    have hstream : streamOf (d :: ds) ++ rest = d ++ 10 :: (streamOf ds ++ rest) := by
      simp [streamOf]
    have hlen : (d :: ds).length + extra = (ds.length + extra) + 1 := by
      simp only [List.length_cons]
      omega
    rw [hstream, hlen,
      loop_step_ok Unmarshal kernels pid contInfo fault d _ _ i stats
        (hdocs d (List.mem_cons_self _ _)) (hdec d (List.mem_cons_self _ _)),
      ih (i + 1) _ (fun x hx => hdocs x (List.mem_cons_of_mem _ hx))
        (fun x hx => hdec x (List.mem_cons_of_mem _ hx))]
    simp only [snapshotsFrom, List.length_cons, List.append_assoc, List.singleton_append]
    congr 1
    omega

theorem snapshotsFrom_length (Unmarshal : Unmarshaler) (kernels : Nat → Kernel) (pid : Int)
    (i : Nat) (docs : List (List Byte)) :
    (snapshotsFrom Unmarshal kernels pid i docs).length = docs.length := by
  induction docs generalizing i with
  | nil => rfl
  | cons d ds ih => simp [snapshotsFrom, ih]

theorem snapshotsFrom_getElem? (Unmarshal : Unmarshaler) (kernels : Nat → Kernel) (pid : Int)
    (i : Nat) (docs : List (List Byte)) (j : Nat) :
    (snapshotsFrom Unmarshal kernels pid i docs)[j]? =
      docs[j]?.map
        (fun d => convertDockerStats (kernels (i + j)) (FromString Unmarshal (d ++ [10])).1 pid) := by
  induction docs generalizing i j with
  | nil => simp [snapshotsFrom]
  | cons d ds ih =>
    cases j with
    | zero => simp [snapshotsFrom]
    | succ j =>
      simp only [snapshotsFrom, List.getElem?_cons_succ, ih]
      have : i + 1 + j = i + (j + 1) := by omega
      rw [this]

theorem snapshotsFrom_mem (Unmarshal : Unmarshaler) (kernels : Nat → Kernel) (pid : Int)
    (i : Nat) (docs : List (List Byte)) (s : containerStats)
    (h : s ∈ snapshotsFrom Unmarshal kernels pid i docs) :
    ∃ j stats, s = convertDockerStats (kernels j) stats pid := by
  induction docs generalizing i with
  | nil => simp [snapshotsFrom] at h
  | cons d ds ih =>
    simp only [snapshotsFrom, List.mem_cons] at h
    rcases h with h | h
    · exact ⟨i, _, h⟩
    · exact ih (i + 1) h

theorem getContainerInfo_docs (Unmarshal : Unmarshaler) (kernels : Nat → Kernel)
    (fault : Error) (docs : List (List Byte)) (rest : List Byte) (count : Int) (id : String)
    (pid : Int) (hlen : (docs.length : Int) = count)
    (hdocs : ∀ d ∈ docs, (10 : Byte) ∉ d)
    (hdec : ∀ d ∈ docs, (FromString Unmarshal (d ++ [10])).2 = none) :
    getContainerInfo Unmarshal kernels ⟨streamOf docs ++ rest, fault⟩ count id pid =
      (({ Id := id, Stats := snapshotsFrom Unmarshal kernels pid 0 docs }, none),
        ⟨rest, fault⟩) := by
  have hn : count.toNat = docs.length + 0 := by omega
  unfold getContainerInfo
  simp only [hn]
  rw [loop_docs Unmarshal kernels pid _ fault docs rest 0 0 [] hdocs hdec]
  simp [getContainerInfoLoop]

theorem getContainerInfo_abort (Unmarshal : Unmarshaler) (kernels : Nat → Kernel)
    (fault e : Error) (docs : List (List Byte)) (tail : List Byte) (count : Int) (id : String)
    (pid : Int) (hk : (docs.length : Int) < count)
    (hdocs : ∀ d ∈ docs, (10 : Byte) ∉ d)
    (hdec : ∀ d ∈ docs, (FromString Unmarshal (d ++ [10])).2 = none)
    (hbad : ((10 : Byte) ∉ tail ∧ e = fault) ∨
      ∃ d rest, tail = d ++ 10 :: rest ∧ (10 : Byte) ∉ d ∧
        (FromString Unmarshal (d ++ [10])).2 = some e) :
    (getContainerInfo Unmarshal kernels ⟨streamOf docs ++ tail, fault⟩ count id pid).1 =
      (({} : containerInfo), some e) := by
  obtain ⟨extra, hn⟩ : ∃ extra, count.toNat = docs.length + (extra + 1) :=
    ⟨count.toNat - docs.length - 1, by omega⟩
  unfold getContainerInfo
  simp only [hn]
  rw [loop_docs Unmarshal kernels pid _ fault docs tail (extra + 1) 0 [] hdocs hdec]
  rcases hbad with ⟨hnl, he⟩ | ⟨d, rest, htail, hnl, hd⟩
  · rw [loop_read_fails Unmarshal kernels pid _ fault tail extra _ _ hnl, he]
  · rw [htail, loop_decode_fails Unmarshal kernels pid _ fault e d rest extra _ _ hnl hd]

theorem convertDockerStats_interfaces_of_fails {kernel : Kernel} {pid : Int}
    (h : resolutionFails kernel pid) (stats : DockerStats) :
    (convertDockerStats kernel stats pid).Network.Interfaces = [] := by
  rw [convertDockerStats_interfaces, getLinkStats_of_resolutionFails h]
  have hv : kernel.order.visit [] = [] := List.Perm.eq_nil (kernel.order.visit_perm [])
  rw [hv]
  rfl

theorem mem_visit_iff (kernel : Kernel) (pid : Int) (entry : String × LinkStatistics) :
    entry ∈ kernel.order.visit (getLinkStats kernel pid) ↔ entry ∈ getLinkStats kernel pid :=
  (kernel.order.visit_perm (getLinkStats kernel pid)).mem_iff

theorem getLinkStats_entry_of_resolvesTo {kernel : Kernel} {pid : Int} {links : List Link}
    (hres : resolvesTo kernel pid links) (entry : String × LinkStatistics)
    (h : entry ∈ getLinkStats kernel pid) :
    mapLookup entry.1 (getLinkStats kernel pid) = some entry.2 ∧
    ∃ l ∈ links, l.Attrs.Name = entry.1 ∧ l.Attrs.Statistics = entry.2 := by
  have hlook : mapLookup entry.1 (getLinkStats kernel pid) = some entry.2 :=
    mapLookup_of_mem_of_nodup _ entry.1 entry.2 (getLinkStats_nodup kernel pid) h
  refine ⟨hlook, ?_⟩
  rw [getLinkStats_of_resolvesTo hres] at hlook
  rcases (collectLinks_spec links [] (by simp [mapKeys])).2.2 entry.1 entry.2 hlook with h0 | h1
  · simp [mapLookup] at h0
  · exact h1

theorem interface_eq_interfaceOf (entry : String × LinkStatistics) (hv : entry.2.valid) :
    ({ Name := entry.1
       RxBytes := uint64OfNat entry.2.RxBytes
       RxPackets := uint64OfNat entry.2.RxPackets
       RxErrors := uint64OfNat entry.2.RxErrors
       RxDropped := uint64OfNat entry.2.RxDropped
       TxBytes := uint64OfNat entry.2.TxBytes
       TxPackets := uint64OfNat entry.2.TxPackets
       TxErrors := uint64OfNat entry.2.TxErrors
       TxDropped := uint64OfNat entry.2.TxDropped } : InterfaceStats) = interfaceOf entry := by
  obtain ⟨h1, h2, h3, h4, h5, h6, h7, h8⟩ := hv
  simp only [interfaceOf, uint64OfNat_of_lt h1, uint64OfNat_of_lt h2, uint64OfNat_of_lt h3,
    uint64OfNat_of_lt h4, uint64OfNat_of_lt h5, uint64OfNat_of_lt h6, uint64OfNat_of_lt h7,
    uint64OfNat_of_lt h8]

theorem convertDockerStats_interfaces_valid {kernel : Kernel} {pid : Int} {links : List Link}
    (hres : resolvesTo kernel pid links) (hvalid : ∀ l ∈ links, l.Attrs.Statistics.valid)
    (stats : DockerStats) :
    (convertDockerStats kernel stats pid).Network.Interfaces =
      (kernel.order.visit (getLinkStats kernel pid)).map interfaceOf := by
  rw [convertDockerStats_interfaces]
  apply List.map_congr_left
  intro entry hentry
  rw [mem_visit_iff] at hentry
  obtain ⟨_, l, hl, _, hst⟩ := getLinkStats_entry_of_resolvesTo hres entry hentry
  apply interface_eq_interfaceOf
  rw [← hst]
  exact hvalid l hl

/-! ## Properties of the pipeline -/

/-- C1: when the stream starts with `count` newline-terminated documents that
`FromString` decodes without error, `getContainerInfo` returns the nil error and
a series tagged with `id` holding exactly `count` snapshots, the `i`-th one being
`convertDockerStats` of the `i`-th decoded record. -/
theorem getContainerInfo_success (Unmarshal : Unmarshaler) (kernels : Nat → Kernel)
    (fault : Error) (docs : List (List Byte)) (rest : List Byte) (count : Int) (id : String)
    (pid : Int) (hcount : 0 ≤ count) (hlen : (docs.length : Int) = count)
    (hdocs : ∀ d ∈ docs, (10 : Byte) ∉ d)
    (hdec : ∀ d ∈ docs, (FromString Unmarshal (d ++ [10])).2 = none) :
    (getContainerInfo Unmarshal kernels ⟨streamOf docs ++ rest, fault⟩ count id pid).1.2 = none ∧
    (getContainerInfo Unmarshal kernels ⟨streamOf docs ++ rest, fault⟩ count id pid).1.1.Id = id ∧
    ((getContainerInfo Unmarshal kernels ⟨streamOf docs ++ rest, fault⟩ count id pid).1.1.Stats.length
      : Int) = count ∧
    ∀ i, (getContainerInfo Unmarshal kernels ⟨streamOf docs ++ rest, fault⟩ count id pid).1.1.Stats[i]? =
      docs[i]?.map
        (fun d => convertDockerStats (kernels i) (FromString Unmarshal (d ++ [10])).1 pid) := by
  have _ := hcount
  rw [getContainerInfo_docs Unmarshal kernels fault docs rest count id pid hlen hdocs hdec]
  refine ⟨rfl, rfl, ?_, ?_⟩
  · simp only [snapshotsFrom_length]
    exact hlen
  · intro i
    simp only [snapshotsFrom_getElem?, Nat.zero_add]

/-- C1, at a stream of two documents followed by further data. -/
theorem getContainerInfo_success_witness :
    (getContainerInfo sampleUnmarshal (fun _ => sampleKernel)
      ⟨streamOf [[123, 125], [123, 125]] ++ [123], EOF⟩ 2 "c1" 42).1.2 = none ∧
    (getContainerInfo sampleUnmarshal (fun _ => sampleKernel)
      ⟨streamOf [[123, 125], [123, 125]] ++ [123], EOF⟩ 2 "c1" 42).1.1.Stats.length = 2 :=
  have h := getContainerInfo_success sampleUnmarshal (fun _ => sampleKernel) EOF
    [[123, 125], [123, 125]] [123] 2 "c1" 42 (by decide) (by decide) (by decide) (by decide)
  ⟨h.1, by decide⟩

/-- C2: when the first `k - 1` records are well-formed, `k ≤ count`, and the
`k`-th read fails (no newline before the stream ends or errors) or the `k`-th
document fails to decode, `getContainerInfo` returns that error together with
the zero-value `containerInfo`: empty `Id`, no `Stats`. -/
theorem getContainerInfo_failure (Unmarshal : Unmarshaler) (kernels : Nat → Kernel)
    (fault e : Error) (docs : List (List Byte)) (tail : List Byte) (count : Int) (id : String)
    (pid : Int) (hk : (docs.length : Int) + 1 ≤ count)
    (hdocs : ∀ d ∈ docs, (10 : Byte) ∉ d)
    (hdec : ∀ d ∈ docs, (FromString Unmarshal (d ++ [10])).2 = none)
    (hbad : ((10 : Byte) ∉ tail ∧ e = fault) ∨
      ∃ d rest, tail = d ++ 10 :: rest ∧ (10 : Byte) ∉ d ∧
        (FromString Unmarshal (d ++ [10])).2 = some e) :
    (getContainerInfo Unmarshal kernels ⟨streamOf docs ++ tail, fault⟩ count id pid).1.2 = some e ∧
    (getContainerInfo Unmarshal kernels ⟨streamOf docs ++ tail, fault⟩ count id pid).1.1 =
      ({} : containerInfo) ∧
    (getContainerInfo Unmarshal kernels ⟨streamOf docs ++ tail, fault⟩ count id pid).1.1.Id = "" ∧
    (getContainerInfo Unmarshal kernels ⟨streamOf docs ++ tail, fault⟩ count id pid).1.1.Stats = [] := by
  rw [getContainerInfo_abort Unmarshal kernels fault e docs tail count id pid (by omega) hdocs hdec
    hbad]
  exact ⟨rfl, rfl, rfl, rfl⟩

/-- C2, at a stream whose first document is well-formed and whose second one does
not decode, with three samples requested. -/
theorem getContainerInfo_failure_witness :
    (getContainerInfo sampleUnmarshal (fun _ => sampleKernel)
      ⟨streamOf [[123, 125]] ++ [123, 10, 123, 125, 10], EOF⟩ 3 "c1" 42).1 =
      (({} : containerInfo), some ⟨"invalid character"⟩) :=
  have h := getContainerInfo_failure sampleUnmarshal (fun _ => sampleKernel) EOF
    ⟨"invalid character"⟩ [[123, 125]] [123, 10, 123, 125, 10] 3 "c1" 42 (by decide) (by decide)
    (by decide) (Or.inr ⟨[123], [123, 125, 10], rfl, by decide, by decide⟩)
  Prod.ext h.2.1 h.1

/-- C3: when interface resolution fails at the namespace lookup, the handle open
or the link enumeration, `getLinkStats` yields no entries and `convertDockerStats`
still returns a snapshot, with empty `Network.Interfaces`; on a stream of exactly
`n` well-formed records `getContainerInfo` then returns no error and a series of
length `n` in which every snapshot has an empty interface list. -/
theorem getContainerInfo_resolution_fails (Unmarshal : Unmarshaler) (kernels : Nat → Kernel)
    (fault : Error) (docs : List (List Byte)) (id : String) (pid : Int)
    (hfail : ∀ i, resolutionFails (kernels i) pid)
    (hdocs : ∀ d ∈ docs, (10 : Byte) ∉ d)
    (hdec : ∀ d ∈ docs, (FromString Unmarshal (d ++ [10])).2 = none) :
    (∀ i, getLinkStats (kernels i) pid = [] ∧
      ∀ stats, (convertDockerStats (kernels i) stats pid).Network.Interfaces = []) ∧
    (getContainerInfo Unmarshal kernels ⟨streamOf docs, fault⟩ docs.length id pid).1.2 = none ∧
    (getContainerInfo Unmarshal kernels ⟨streamOf docs, fault⟩ docs.length id pid).1.1.Stats.length =
      docs.length ∧
    ∀ s ∈ (getContainerInfo Unmarshal kernels ⟨streamOf docs, fault⟩ docs.length id pid).1.1.Stats,
      s.Network.Interfaces = [] := by
  have hrun := getContainerInfo_docs Unmarshal kernels fault docs [] docs.length id pid rfl hdocs hdec
  rw [List.append_nil] at hrun
  rw [hrun]
  refine ⟨fun i => ⟨getLinkStats_of_resolutionFails (hfail i),
    fun stats => convertDockerStats_interfaces_of_fails (hfail i) stats⟩, rfl, ?_, ?_⟩
  · exact snapshotsFrom_length Unmarshal kernels pid 0 docs
  · intro s hs
    obtain ⟨j, stats, hj⟩ := snapshotsFrom_mem Unmarshal kernels pid 0 docs s hs
    rw [hj]
    exact convertDockerStats_interfaces_of_fails (hfail j) stats

/-- C3, at a stream of exactly two documents and a kernel without namespaces. -/
theorem getContainerInfo_resolution_fails_witness :
    (getContainerInfo sampleUnmarshal (fun _ => failingKernel)
      ⟨streamOf [[123, 125], [123, 125]], EOF⟩ 2 "c1" 42).1.2 = none ∧
    ∀ s ∈ (getContainerInfo sampleUnmarshal (fun _ => failingKernel)
      ⟨streamOf [[123, 125], [123, 125]], EOF⟩ 2 "c1" 42).1.1.Stats,
      s.Network.Interfaces = [] :=
  have h := getContainerInfo_resolution_fails sampleUnmarshal (fun _ => failingKernel) EOF
    [[123, 125], [123, 125]] "c1" 42 (fun _ => Or.inl ⟨⟨"no such process"⟩, rfl⟩) (by decide)
    (by decide)
  ⟨h.2.1, h.2.2.2⟩

/-- C4: `convertDockerStats` sets `cpu.usage.total` from the current-window
`total_usage`, and both `cpu.usage.system` and `cpu.usage.user` from
`usage_in_kernelmode`; the snapshot does not depend on `usage_in_usermode`.
With `total_usage = 1000000000`, `usage_in_kernelmode = 200000000` and
`usage_in_usermode = 300000000` the result is `1000000000`, `200000000`, `200000000`. -/
theorem convertDockerStats_cpu_usage (kernel : Kernel) (stats : DockerStats) (pid : Int) :
    (convertDockerStats kernel stats pid).Cpu.Usage.Total =
      uint64 stats.CPUStats.CPUUsage.TotalUsage ∧
    (convertDockerStats kernel stats pid).Cpu.Usage.System =
      uint64 stats.CPUStats.CPUUsage.UsageInKernelmode ∧
    (convertDockerStats kernel stats pid).Cpu.Usage.User =
      uint64 stats.CPUStats.CPUUsage.UsageInKernelmode ∧
    (0 ≤ stats.CPUStats.CPUUsage.TotalUsage → stats.CPUStats.CPUUsage.TotalUsage < 2 ^ 63 →
      ((convertDockerStats kernel stats pid).Cpu.Usage.Total : Int) =
        stats.CPUStats.CPUUsage.TotalUsage) ∧
    (0 ≤ stats.CPUStats.CPUUsage.UsageInKernelmode →
      stats.CPUStats.CPUUsage.UsageInKernelmode < 2 ^ 63 →
      ((convertDockerStats kernel stats pid).Cpu.Usage.System : Int) =
        stats.CPUStats.CPUUsage.UsageInKernelmode ∧
      ((convertDockerStats kernel stats pid).Cpu.Usage.User : Int) =
        stats.CPUStats.CPUUsage.UsageInKernelmode) ∧
    (∀ u : Int,
      convertDockerStats kernel
        { stats with
          CPUStats :=
            { stats.CPUStats with
              CPUUsage := { stats.CPUStats.CPUUsage with UsageInUsermode := u } } } pid =
        convertDockerStats kernel stats pid) ∧
    (stats.CPUStats.CPUUsage.TotalUsage = 1000000000 →
      stats.CPUStats.CPUUsage.UsageInKernelmode = 200000000 →
      stats.CPUStats.CPUUsage.UsageInUsermode = 300000000 →
      (convertDockerStats kernel stats pid).Cpu.Usage.Total = 1000000000 ∧
      (convertDockerStats kernel stats pid).Cpu.Usage.System = 200000000 ∧
      (convertDockerStats kernel stats pid).Cpu.Usage.User = 200000000) := by
  refine ⟨rfl, rfl, rfl, ?_, ?_, fun u => rfl, ?_⟩
  · intro h0 h1
    exact uint64_of_nonneg h0 h1
  · intro h0 h1
    exact ⟨uint64_of_nonneg h0 h1, uint64_of_nonneg h0 h1⟩
  · intro ht hk _
    have e1 : (convertDockerStats kernel stats pid).Cpu.Usage.Total =
        uint64 stats.CPUStats.CPUUsage.TotalUsage := rfl
    have e2 : (convertDockerStats kernel stats pid).Cpu.Usage.System =
        uint64 stats.CPUStats.CPUUsage.UsageInKernelmode := rfl
    have e3 : (convertDockerStats kernel stats pid).Cpu.Usage.User =
        uint64 stats.CPUStats.CPUUsage.UsageInKernelmode := rfl
    rw [e1, e2, e3, ht, hk]
    exact ⟨by decide, by decide, by decide⟩

/-- C4, at the record of the example. -/
theorem convertDockerStats_cpu_usage_witness :
    (convertDockerStats sampleKernel
      { CPUStats := { CPUUsage := { TotalUsage := 1000000000, UsageInKernelmode := 200000000,
                                    UsageInUsermode := 300000000 } } } 42).Cpu.Usage.Total =
      1000000000 ∧
    (convertDockerStats sampleKernel
      { CPUStats := { CPUUsage := { TotalUsage := 1000000000, UsageInKernelmode := 200000000,
                                    UsageInUsermode := 300000000 } } } 42).Cpu.Usage.System =
      200000000 ∧
    (convertDockerStats sampleKernel
      { CPUStats := { CPUUsage := { TotalUsage := 1000000000, UsageInKernelmode := 200000000,
                                    UsageInUsermode := 300000000 } } } 42).Cpu.Usage.User =
      200000000 :=
  (convertDockerStats_cpu_usage sampleKernel
    { CPUStats := { CPUUsage := { TotalUsage := 1000000000, UsageInKernelmode := 200000000,
                                  UsageInUsermode := 300000000 } } } 42).2.2.2.2.2.2 rfl rfl rfl

/-- C5: the `DiskIo.IoServiceBytes` sequence of `convertDockerStats` has the length
of the raw `io_service_bytes_recursive` list, and its `i`-th record has a `Stats`
map with exactly one entry, from the `i`-th tuple's `op` to the `i`-th tuple's
value; tuples of one device are not merged: the list of the example, `Read 100`
and `Write 50` on device `8:0`, gives two records with one entry each. -/
theorem convertDockerStats_ioServiceBytes_entries (kernel : Kernel) (stats : DockerStats)
    (pid : Int) :
    (convertDockerStats kernel stats pid).DiskIo.IoServiceBytes.length =
      stats.BlkioStats.IoServiceBytesRecursive.length ∧
    (∀ i : Nat,
      Option.map (fun r : PerDiskStats => r.Stats)
          ((convertDockerStats kernel stats pid).DiskIo.IoServiceBytes[i]?) =
        Option.map (fun t : BlkioEntry => [(t.Op, uint64 t.Value)])
          (stats.BlkioStats.IoServiceBytesRecursive[i]?)) ∧
    (∀ r ∈ (convertDockerStats kernel stats pid).DiskIo.IoServiceBytes, r.Stats.length = 1) ∧
    (∀ (i : Nat) (t : BlkioEntry), stats.BlkioStats.IoServiceBytesRecursive[i]? = some t →
      0 ≤ t.Value → t.Value < 2 ^ 63 →
      Option.map (fun r : PerDiskStats => r.Stats)
          ((convertDockerStats kernel stats pid).DiskIo.IoServiceBytes[i]?) =
        some [(t.Op, t.Value.toNat)]) ∧
    (stats.BlkioStats.IoServiceBytesRecursive =
        [{ Major := 8, Minor := 0, Op := "Read", Value := 100 },
         { Major := 8, Minor := 0, Op := "Write", Value := 50 }] →
      (convertDockerStats kernel stats pid).DiskIo.IoServiceBytes.map
          (fun r : PerDiskStats => r.Stats) =
        [[("Read", 100)], [("Write", 50)]]) := by
  rw [convertDockerStats_ioServiceBytes]
  refine ⟨by simp, ?_, ?_, ?_, ?_⟩
  · intro i
    simp only [List.getElem?_map, Option.map_map]
    rfl
  · intro r hr
    obtain ⟨t, _, ht⟩ := List.mem_map.mp hr
    rw [← ht]
    rfl
  · intro i t hi h0 h1
    have hv : uint64 t.Value = t.Value.toNat := by
      have := uint64_of_nonneg h0 h1
      omega
    simp only [List.getElem?_map, hi, Option.map_some', hv]
  · intro h
    rw [h]
    decide

/-- C5, at the block I/O list of the example. -/
theorem convertDockerStats_ioServiceBytes_entries_witness :
    (convertDockerStats sampleKernel
      { BlkioStats := { IoServiceBytesRecursive :=
          [{ Major := 8, Minor := 0, Op := "Read", Value := 100 },
           { Major := 8, Minor := 0, Op := "Write", Value := 50 }] } }
      42).DiskIo.IoServiceBytes.map (fun r : PerDiskStats => r.Stats) =
      [[("Read", 100)], [("Write", 50)]] :=
  (convertDockerStats_ioServiceBytes_entries sampleKernel
    { BlkioStats := { IoServiceBytesRecursive :=
        [{ Major := 8, Minor := 0, Op := "Read", Value := 100 },
         { Major := 8, Minor := 0, Op := "Write", Value := 50 }] } } 42).2.2.2.2 rfl

/-- C6: the record emitted for a block I/O tuple does not carry the tuple's
device id. For the tuple `major 8, minor 16, op Read, value 100` the emitted
record has `Major = 0` and `Minor = 0`; the same holds for every tuple. -/
theorem convertDockerStats_device_id_dropped (kernel : Kernel) (stats : DockerStats) (pid : Int) :
    (convertDockerStats kernel
      { BlkioStats := { IoServiceBytesRecursive :=
          [{ Major := 8, Minor := 16, Op := "Read", Value := 100 }] } }
      pid).DiskIo.IoServiceBytes = [{ Major := 0, Minor := 0, Stats := [("Read", 100)] }] ∧
    ∀ r ∈ (convertDockerStats kernel stats pid).DiskIo.IoServiceBytes,
      r.Major = 0 ∧ r.Minor = 0 := by
  constructor
  · rw [convertDockerStats_ioServiceBytes]
    decide
  · intro r hr
    rw [convertDockerStats_ioServiceBytes] at hr
    obtain ⟨t, _, ht⟩ := List.mem_map.mp hr
    rw [← ht]
    exact ⟨rfl, rfl⟩

/-- C7: whatever links the namespace enumerates, the map returned by
`getLinkStats` has no key `lo`, and no record of `Network.Interfaces` in a
snapshot of `convertDockerStats` is named `lo`. -/
theorem loopback_excluded (kernel : Kernel) (stats : DockerStats) (pid : Int) :
    "lo" ∉ mapKeys (getLinkStats kernel pid) ∧
    mapLookup "lo" (getLinkStats kernel pid) = none ∧
    ∀ r ∈ (convertDockerStats kernel stats pid).Network.Interfaces, r.Name ≠ "lo" := by
  have hlo := lo_not_mem_getLinkStats kernel pid
  refine ⟨hlo, ?_, ?_⟩
  · cases hl : mapLookup "lo" (getLinkStats kernel pid) with
    | none => rfl
    | some st =>
      exfalso
      apply hlo
      clear hlo
      generalize getLinkStats kernel pid = m at hl
      induction m with
      | nil => simp [mapLookup] at hl
      | cons p rest ih =>
        obtain ⟨k, v⟩ := p
        by_cases hk : k = "lo"
        · simp [mapKeys, hk]
        · simp only [mapLookup, if_neg hk] at hl
          have := ih hl
          simp only [mapKeys, List.map_cons, List.mem_cons]
          exact Or.inr this
  · intro r hr hname
    rw [convertDockerStats_interfaces] at hr
    obtain ⟨entry, hentry, hr'⟩ := List.mem_map.mp hr
    rw [mem_visit_iff] at hentry
    apply hlo
    have h1 : entry.1 = "lo" := by
      rw [← hname, ← hr']
    rw [← h1]
    exact List.mem_map.mpr ⟨entry, hentry, rfl⟩

/-- C7, at a namespace holding `lo`, `eth0` and `eth1`: `lo` is no key of the map
and the snapshot lists only `eth1` and `eth0`. -/
theorem loopback_excluded_witness :
    "lo" ∉ mapKeys (getLinkStats sampleKernel 42) ∧
    mapKeys (getLinkStats sampleKernel 42) = ["eth0", "eth1"] :=
  ⟨(loopback_excluded sampleKernel {} 42).1, by decide⟩

/-- C8 as stated fails: with the negative sample count `-1`, `getContainerInfo`
returns the nil error together with an empty series tagged with the id. -/
theorem getContainerInfo_negative_count_counterexample :
    (-1 : Int) < 0 ∧
    (getContainerInfo sampleUnmarshal (fun _ => sampleKernel)
      ⟨streamOf [[123, 125]], EOF⟩ (-1) "c1" 42).1 = ({ Id := "c1", Stats := [] }, none) := by
  decide

/-- C8, amended: for every negative sample count `getContainerInfo` performs no
read and returns the nil error with a series tagged with `id` and no snapshots. -/
theorem getContainerInfo_negative_count (Unmarshal : Unmarshaler) (kernels : Nat → Kernel)
    (reader : Reader) (count : Int) (id : String) (pid : Int) (hcount : count < 0) :
    getContainerInfo Unmarshal kernels reader count id pid =
      (({ Id := id, Stats := [] }, none), reader) := by
  have hn : count.toNat = 0 := by omega
  simp [getContainerInfo, hn, getContainerInfoLoop]

/-- C8, amended, at the sample count `-5`. -/
theorem getContainerInfo_negative_count_witness :
    (-5 : Int) < 0 ∧
    getContainerInfo sampleUnmarshal (fun _ => sampleKernel) ⟨streamOf [[123, 125]], EOF⟩ (-5)
      "c1" 42 = (({ Id := "c1", Stats := [] }, none), ⟨streamOf [[123, 125]], EOF⟩) :=
  ⟨by decide,
    getContainerInfo_negative_count sampleUnmarshal (fun _ => sampleKernel)
      ⟨streamOf [[123, 125]], EOF⟩ (-5) "c1" 42 (by decide)⟩

/-- C9: when interface resolution succeeds, the keys of the map returned by
`getLinkStats` are the distinct link names other than `lo`, and
`Network.Interfaces` holds exactly one record per entry of that map and no
others; the record's `Name` is the key and each of its eight counters is the
counter of the same name in the statistics of the link so named. -/
theorem convertDockerStats_interfaces_exact (kernel : Kernel) (stats : DockerStats) (pid : Int)
    (links : List Link) (hres : resolvesTo kernel pid links)
    (hvalid : ∀ l ∈ links, l.Attrs.Statistics.valid) :
    (mapKeys (getLinkStats kernel pid)).Nodup ∧
    (∀ n, n ∈ mapKeys (getLinkStats kernel pid) ↔ n ≠ "lo" ∧ ∃ l ∈ links, l.Attrs.Name = n) ∧
    ((convertDockerStats kernel stats pid).Network.Interfaces.map
      (fun r : InterfaceStats => r.Name)).Perm (mapKeys (getLinkStats kernel pid)) ∧
    (convertDockerStats kernel stats pid).Network.Interfaces.Perm
      ((getLinkStats kernel pid).map interfaceOf) ∧
    ∀ r ∈ (convertDockerStats kernel stats pid).Network.Interfaces,
      ∃ st, mapLookup r.Name (getLinkStats kernel pid) = some st ∧
        (∃ l ∈ links, l.Attrs.Name = r.Name ∧ l.Attrs.Statistics = st) ∧
        r.RxBytes = st.RxBytes ∧ r.RxPackets = st.RxPackets ∧ r.RxErrors = st.RxErrors ∧
        r.RxDropped = st.RxDropped ∧ r.TxBytes = st.TxBytes ∧ r.TxPackets = st.TxPackets ∧
        r.TxErrors = st.TxErrors ∧ r.TxDropped = st.TxDropped := by
  have hifs := convertDockerStats_interfaces_valid hres hvalid stats
  have hperm := kernel.order.visit_perm (getLinkStats kernel pid)
  refine ⟨getLinkStats_nodup kernel pid, ?_, ?_, ?_, ?_⟩
  · intro n
    rw [getLinkStats_of_resolvesTo hres, (collectLinks_spec links [] (by simp [mapKeys])).2.1]
    simp [mapKeys]
  · rw [hifs, List.map_map]
    exact hperm.map _
  · rw [hifs]
    exact hperm.map _
  · intro r hr
    rw [hifs] at hr
    obtain ⟨entry, hentry, hr'⟩ := List.mem_map.mp hr
    rw [mem_visit_iff] at hentry
    obtain ⟨hlook, hlink⟩ := getLinkStats_entry_of_resolvesTo hres entry hentry
    rw [← hr']
    exact ⟨entry.2, hlook, hlink, rfl, rfl, rfl, rfl, rfl, rfl, rfl, rfl⟩

/-- C9, at a namespace holding `lo`, `eth0` and `eth1`, with the map iterated in
reverse: the snapshot lists `eth1` and `eth0`. -/
theorem convertDockerStats_interfaces_exact_witness :
    (∀ l ∈ sampleLinks, l.Attrs.Statistics.valid) ∧
    ((convertDockerStats sampleKernel {} 42).Network.Interfaces.map
      (fun r : InterfaceStats => r.Name)).Perm (mapKeys (getLinkStats sampleKernel 42)) ∧
    (convertDockerStats sampleKernel {} 42).Network.Interfaces.map
      (fun r : InterfaceStats => r.Name) = ["eth1", "eth0"] :=
  ⟨by decide,
    (convertDockerStats_interfaces_exact sampleKernel {} 42 sampleLinks ⟨3, 4, rfl, rfl, rfl⟩
      (by decide)).2.2.1,
    by decide⟩

/-- C10: `cpu.usage.per_cpu` is an ordered copy of the raw current-window
`percpu_usage` array: same length, the `i`-th element being the `i`-th raw value
modulo `2 ^ 64`, which is the value itself when it is non-negative and the value
plus `2 ^ 64` when it is negative; an absent array gives the empty sequence.
`memory.usage` is converted in the same way. -/
theorem convertDockerStats_perCpu_copy (kernel : Kernel) (stats : DockerStats) (pid : Int) :
    (convertDockerStats kernel stats pid).Cpu.Usage.PerCpu.length =
      stats.CPUStats.CPUUsage.PercpuUsage.length ∧
    (∀ (i : Nat) (v : Int), stats.CPUStats.CPUUsage.PercpuUsage[i]? = some v →
      ∃ u : Nat, (convertDockerStats kernel stats pid).Cpu.Usage.PerCpu[i]? = some u ∧
        (u : Int) = v % 2 ^ 64 ∧
        (isInt64 v → 0 ≤ v → (u : Int) = v) ∧
        (isInt64 v → v < 0 → (u : Int) = v + 2 ^ 64)) ∧
    (stats.CPUStats.CPUUsage.PercpuUsage = [] →
      (convertDockerStats kernel stats pid).Cpu.Usage.PerCpu = []) ∧
    ((convertDockerStats kernel stats pid).Memory.Usage : Int) =
      stats.MemoryStats.Usage % 2 ^ 64 ∧
    (isInt64 stats.MemoryStats.Usage → 0 ≤ stats.MemoryStats.Usage →
      ((convertDockerStats kernel stats pid).Memory.Usage : Int) = stats.MemoryStats.Usage) ∧
    (isInt64 stats.MemoryStats.Usage → stats.MemoryStats.Usage < 0 →
      ((convertDockerStats kernel stats pid).Memory.Usage : Int) =
        stats.MemoryStats.Usage + 2 ^ 64) := by
  have hmem : (convertDockerStats kernel stats pid).Memory.Usage =
      uint64 stats.MemoryStats.Usage := rfl
  rw [convertDockerStats_perCpu, hmem]
  refine ⟨by simp, ?_, ?_, uint64_cast _, fun h h0 => uint64_of_nonneg h0 h.2,
    fun h h0 => uint64_of_neg h0 h.1⟩
  · intro i v hv
    refine ⟨uint64 v, ?_, uint64_cast v, fun h h0 => uint64_of_nonneg h0 h.2,
      fun h h0 => uint64_of_neg h0 h.1⟩
    simp only [List.getElem?_map, hv, Option.map_some']
  · intro h
    rw [h]
    rfl

/-- C10, at the per-core array `[5, -1]`: the second element becomes `2 ^ 64 - 1`. -/
theorem convertDockerStats_perCpu_copy_witness :
    ∃ u : Nat,
      (convertDockerStats sampleKernel
        { CPUStats := { CPUUsage := { PercpuUsage := [5, -1] } } } 42).Cpu.Usage.PerCpu[1]? =
        some u ∧ (u : Int) = -1 + 2 ^ 64 :=
  match (convertDockerStats_perCpu_copy sampleKernel
      { CPUStats := { CPUUsage := { PercpuUsage := [5, -1] } } } 42).2.1 1 (-1) (by decide) with
  | ⟨u, hu, _, _, hneg⟩ => ⟨u, hu, hneg (by decide) (by decide)⟩

end Stats
